import Mathlib

/-!
Shallow embedding, in Lean 4, of the request-orchestration core of the
Interlingua translation front-end, together with theorems settling the
specification claims about it.

The embedded code comes from:
* `src/hooks/useTranslation.ts` — the translation request coordinator
  (`translateText`, its completion handler, and prompt construction);
* `src/config/constants.ts` — language options, limits, system prompt;
* `src/utils/transforms.ts` — `withTimeout`, `selectInitialModel`,
  `mapOllamaModelsToOptions`;
* `src/services/ollamaApi.ts` — `fetchOllamaModels`, `fetchTranslation`,
  `handleNetworkError`;
* `src/hooks/useOllamaModels.ts` — the directory-fetch state update;
* `src/hooks/usePersistentState.ts` — localStorage-backed state;
* `src/pages/TranslationPage/TranslationPage.tsx` — the debounce effect
  and the translate-click guard.

The UI layer runs single-threaded and event-driven, so stateful hooks are
embedded as explicit state-passing functions, and asynchronous completions
as separate events carrying the data their closures captured.
-/

namespace Interlingua

/-- Configuration constants from `src/config/constants.ts` (`LIMITS` in the
final revision's `src/data`). -/
def MAX_INPUT_CHARACTERS : Nat := 6400

/-- Directory-fetch timeout in milliseconds (`MODEL_FETCH_TIMEOUT`). -/
def MODEL_FETCH_TIMEOUT : Nat := 10000

/-- Translation timeout in milliseconds (`TRANSLATION_TIMEOUT`). -/
def TRANSLATION_TIMEOUT : Nat := 30000

/-- Entry of the language / model dropdowns (`DropdownOption` in
`src/types`). -/
structure DropdownOption where
  value : String
  label : String
deriving DecidableEq, Repr

/-- Language options from `src/config/constants.ts`. -/
def languageOptions : List DropdownOption :=
  [⟨"auto", "Auto-Detect"⟩,
   ⟨"en", "English"⟩,
   ⟨"es", "Spanish"⟩,
   ⟨"ca", "Catalan"⟩,
   ⟨"fr", "French"⟩,
   ⟨"de", "German"⟩,
   ⟨"it", "Italian"⟩,
   ⟨"pt", "Portuguese"⟩,
   ⟨"ru", "Russian"⟩,
   ⟨"ja", "Japanese"⟩,
   ⟨"ko", "Korean"⟩,
   ⟨"zh", "Chinese (Simplified)"⟩,
   ⟨"ar", "Arabic"⟩,
   ⟨"hi", "Hindi"⟩]

/-- The system instruction from `src/config/constants.ts`
(`translationSystemPrompt`); only its identity matters for the theorems
below, never its inner structure. -/
def translationSystemPrompt : String :=
  "You are an expert translation engine.\nYour primary task is to translate user-provided text.\nWhen you receive a request to translate text from a source language to a target language, you must adhere to the following rules:\n1.  Maintain the original meaning, context, and tone of the source text. Do not add, omit, or interpret information beyond what is present in the original.\n2.  Preserve technical terms, proper names, and idiomatic expressions. Translate them only if a clear and accurate equivalent exists in the target language. Otherwise, retain them in their original form if appropriate for the target language context.\n3.  Your response MUST ONLY be the translated text. Do not include any preambles, explanations, comments, apologies, or any additional text such as \"Translation:\", \"Translated text:\", \"Here is the translation:\", etc.\n4.  Prioritize fluent and natural grammar in the target language over a direct, literal word-for-word translation. The translation should read as if it were originally written in the target language.\n5.  If the source text contains code blocks, reproduce them accurately within a code block in the translation. If the programming language is specified or discernible, use the correct language identifier for the code block (e.g., ```javascript). Ensure the code block is correctly formatted and closed.\n6.  Ensure correct paragraph structure. If the source text has unusual spacing or lacks clear paragraph breaks, structure the translation into well-formed paragraphs for optimal readability.\n\nYou will receive the text to translate, along with the source and target languages, in the user's message. Focus solely on providing the accurate translated text as your output."

/-- Model of JavaScript `String.prototype.trim`: strips leading and
trailing whitespace. -/
def jsTrim (s : String) : String :=
  ⟨((s.data.dropWhile Char.isWhitespace).reverse.dropWhile Char.isWhitespace).reverse⟩

/-- Chat message (`OllamaMessage` in `src/types`). -/
structure OllamaMessage where
  role : String
  content : String
deriving DecidableEq, Repr

/-- Generation options passed by `translateText`
(`{ temperature: 0.2, seed: 42, top_k: 20, top_p: 0.7 }`); the two
floating-point fields are embedded as rationals. -/
structure ChatOptions where
  temperature : Rat
  seed : Nat
  top_k : Nat
  top_p : Rat
deriving DecidableEq, Repr

/-- Body of a `/chat` request as assembled by `translateText`
(`stream: false` is fixed and omitted). -/
structure ChatRequest where
  model : String
  messages : List OllamaMessage
  options : ChatOptions
deriving DecidableEq, Repr

/-- The `getLanguageLabelWithDialect` helper of `useTranslation.ts`:
looks a code up in `languageOptions` and appends the Catalonia
disambiguation for Catalan. -/
def getLanguageLabelWithDialect (langCode : String) : String :=
  match languageOptions.find? (fun l => l.value == langCode) with
  | none => langCode
  | some lang =>
    if lang.value = "ca" then lang.label ++ " (from Catalonia)" else lang.label

/-- The `userMessageContent` construction inside `translateText`
(`useTranslation.ts`, lines 85–92). -/
def userMessageContent (inputLanguage outputLanguage textToTranslate : String) : String :=
  let outputLangLabel := getLanguageLabelWithDialect outputLanguage
  if inputLanguage = "auto" then
    "Detect the language of the following text and then translate it to " ++ outputLangLabel ++
      ". Your response must contain ONLY the translated text, without any additional comments or explanations.\n\n" ++
      textToTranslate
  else
    "Translate the following text from " ++ getLanguageLabelWithDialect inputLanguage ++
      " to " ++ outputLangLabel ++ ":\n\n" ++ textToTranslate

/-- Props of the `useTranslation` hook. -/
structure TranslationProps where
  selectedModel : String
  inputLanguage : String
  outputLanguage : String
deriving DecidableEq, Repr

/-- Observable and internal state of the `useTranslation` hook:
`translatedText`, `isTranslating`, `translationError` are React state
(visible), `currentRequestId` and `isTranslatingRef` are refs. -/
structure CoordState where
  translatedText : String
  isTranslating : Bool
  translationError : Option String
  currentRequestId : Nat
  isTranslatingRef : Bool
deriving DecidableEq, Repr

/-- Initial hook state: `useState('')`, `useState(false)`,
`useState(null)`, `useRef(0)`, `useRef(false)`. -/
def initialCoordState : CoordState :=
  { translatedText := ""
    isTranslating := false
    translationError := none
    currentRequestId := 0
    isTranslatingRef := false }

/-- A network call issued by `translateText`, paired with the request id
its completion handler captured. -/
structure PendingCall where
  id : Nat
  req : ChatRequest
deriving DecidableEq, Repr

/-- Result of the synchronous part of `translateText`: the state after
the function has either returned early or issued its fetch, plus the
issued call (if any). -/
structure SubmitResult where
  state : CoordState
  request : Option PendingCall
deriving DecidableEq, Repr

/-- Synchronous prefix of `translateText` (`useTranslation.ts`,
lines 63–104): the guards, the request-id increment, the state
transitions up to and including the `fetchTranslation` call. The
condition `requestId !== currentRequestId.current - 1` is kept verbatim
even though it is always true at this point (`requestId` equals
`currentRequestId.current` right after the increment). -/
def translateTextSubmit (props : TranslationProps) (s : CoordState) (text : String) :
    SubmitResult :=
  let textToTranslate := jsTrim text
  if textToTranslate = "" ∨ props.selectedModel = "" ∨ s.isTranslatingRef then
    ⟨s, none⟩
  else
    let requestId := s.currentRequestId + 1
    let s1 := { s with currentRequestId := requestId }
    if textToTranslate = s.translatedText ∧ s.translationError = none then
      ⟨s1, none⟩
    else
      let s2 := { s1 with
        isTranslatingRef := true
        isTranslating := true
        translationError := none
        translatedText :=
          if requestId ≠ s1.currentRequestId - 1 then "" else s1.translatedText }
      ⟨s2, some
        { id := requestId
          req :=
            { model := props.selectedModel
              messages :=
                [⟨"system", translationSystemPrompt⟩,
                 ⟨"user", userMessageContent props.inputLanguage props.outputLanguage textToTranslate⟩]
              options := { temperature := 0.2, seed := 42, top_k := 20, top_p := 0.7 } } }⟩

/-- Completion handler of `translateText` (`useTranslation.ts`,
lines 99–123): `requestId` is the id captured at submission, the
`Except` value is the settled `fetchTranslation` promise (error message
already extracted, as by `error.message`). -/
def translateTextComplete (s : CoordState) (requestId : Nat)
    (result : Except String String) : CoordState :=
  let s1 :=
    match result with
    | .ok translation =>
      if requestId = s.currentRequestId then { s with translatedText := translation } else s
    | .error msg =>
      if requestId = s.currentRequestId then
        { s with translationError := some msg, translatedText := "" }
      else s
  let s2 := if requestId = s1.currentRequestId then { s1 with isTranslating := false } else s1
  { s2 with isTranslatingRef := false }

/-! ### Whole-system event model for the in-flight invariant

`useTranslation` is driven by UI events; each `translateText` call may
issue one network call whose completion handler fires later. The list
`inFlight` collects the calls that have been issued but whose handler
has not yet run. -/

/-- State of the coordinator together with its outstanding network
calls. -/
structure SysState where
  coord : CoordState
  inFlight : List PendingCall
deriving DecidableEq, Repr

/-- Initial system state: fresh hook, no outstanding call. -/
def initialSysState : SysState := ⟨initialCoordState, []⟩

/-- Events that reach the coordinator: a `translateText` invocation, or
the settling of an issued network call (identified by its captured
request id). -/
inductive CoordEvent where
  | submit (text : String)
  | complete (requestId : Nat) (result : Except String String)
deriving Repr

/-- One event step: a submit runs the synchronous part of
`translateText` and records the issued call, if any; a completion for an
actually outstanding id removes that call and runs the completion
handler, and is ignored otherwise (a network call settles exactly
once). -/
def sysStep (props : TranslationProps) (σ : SysState) : CoordEvent → SysState
  | .submit text =>
    let r := translateTextSubmit props σ.coord text
    { coord := r.state
      inFlight := σ.inFlight ++ (match r.request with | some p => [p] | none => []) }
  | .complete requestId result =>
    if σ.inFlight.any (fun p => p.id == requestId) then
      { coord := translateTextComplete σ.coord requestId result
        inFlight := σ.inFlight.filter (fun p => p.id != requestId) }
    else σ

/-- Run a trace of events from a state. -/
def sysRun (props : TranslationProps) (σ : SysState) (evs : List CoordEvent) : SysState :=
  evs.foldl (sysStep props) σ

/-- Invariant tying the `isTranslatingRef` guard to the outstanding
calls: at most one call is outstanding, and none is outstanding unless
the guard is set. -/
def InFlightInv (σ : SysState) : Prop :=
  σ.inFlight.length ≤ 1 ∧ (σ.coord.isTranslatingRef = false → σ.inFlight = [])

/-! ### Page-level logic: translate button guard and auto-translate debounce

From `TranslationPage.tsx` (final revision): `isOverLimit`,
`handleTranslateClick`, and the debounce effect (lines 72–103). -/

/-- The `isOverLimit` flag: `inputText.length > MAX_INPUT_CHARACTERS`. -/
def isOverLimit (inputText : String) : Bool :=
  inputText.length > MAX_INPUT_CHARACTERS

/-- Guard of `handleTranslateClick`: returns `true` exactly when the
click falls through to `translateText(inputText)`. -/
def handleTranslateClick (inputText selectedModel : String) (isTranslating : Bool) : Bool :=
  !(jsTrim inputText = "" || selectedModel = "" || isTranslating || isOverLimit inputText)

/-- State of `TranslationPage` relevant to the debounce effect:
the input text, the coordinator's visible output/error, the
`lastTranslatedText` ref, and the currently scheduled (not yet elapsed)
debounce timer together with the input text its closure captured. -/
structure PageState where
  inputText : String
  translatedText : String
  translationError : Option String
  lastTranslatedText : String
  pendingTimer : Option String
deriving DecidableEq, Repr

/-- The debounce effect body (`TranslationPage.tsx`, lines 72–103), run
after its cleanup has cancelled any previously scheduled timer. Blank
input clears output, error and the ref; otherwise, in auto mode, with
text different from the last auto-translated text, with no successful
output displayed (or an error recorded), with a model selected and the
input within the limit, a 750 ms timer capturing the current input text
is scheduled. -/
def runDebounceEffect (selectedModel inputLanguage : String) (s : PageState) : PageState :=
  let s0 := { s with pendingTimer := none }
  if jsTrim s0.inputText = "" then
    { s0 with translatedText := "", translationError := none, lastTranslatedText := "" }
  else if inputLanguage = "auto" ∧ s0.inputText ≠ s0.lastTranslatedText ∧
      (s0.translatedText = "" ∨ s0.translationError ≠ none) ∧
      selectedModel ≠ "" ∧ isOverLimit s0.inputText = false then
    { s0 with pendingTimer := some s0.inputText }
  else s0

/-- An input edit: `setInputText` followed by the re-run of the debounce
effect (whose dependency array contains `inputText`). -/
def editInput (selectedModel inputLanguage : String) (s : PageState) (newText : String) :
    PageState :=
  runDebounceEffect selectedModel inputLanguage { s with inputText := newText }

/-- The debounce window elapsing: if a timer is still scheduled, its
callback sets `lastTranslatedText` and calls `translateText` with the
captured text (returned as the second component); otherwise nothing
fires. -/
def elapseTimer (s : PageState) : PageState × Option String :=
  match s.pendingTimer with
  | none => (s, none)
  | some t => ({ s with pendingTimer := none, lastTranslatedText := t }, some t)

/-! ### Network clients (`src/utils/transforms.ts`, `src/services/ollamaApi.ts`)

A JavaScript promise either fulfills or rejects with an error value
carrying a `name` and a `message`. An asynchronous call is embedded as
its eventual settlement plus the (real-time) duration until it settles
and whether the wrapped `fetch` was given the `AbortController`'s
signal — which decides whether the `withTimeout` timer can affect it. -/

/-- A JavaScript error value: `name` (e.g. `"TypeError"`,
`"AbortError"`) and `message`. -/
structure JsError where
  name : String
  message : String
deriving DecidableEq, Repr

/-- An asynchronous computation as seen by `withTimeout`: how long the
wrapped promise takes to settle, its settlement, and whether the
underlying `fetch` subscribes to the controller's abort signal. In
`src/services/ollamaApi.ts` (final revision) neither `fetch` call passes
`controller.signal`, so both clients below use `usesSignal := false`. -/
structure AsyncCall (α : Type) where
  duration : Nat
  outcome : Except JsError α
  usesSignal : Bool
deriving Repr

/-- The `withTimeout` wrapper (`src/utils/transforms.ts`, lines 39–57):
a timer aborts the controller after `ms` milliseconds; if the wrapped
call observes the signal and is still pending then, it rejects with an
`AbortError`, which the catch block converts into the
`Operation timed out after {ms}ms` error. A call that never observes the
signal settles with its own outcome regardless of duration. -/
def withTimeout {α : Type} (call : AsyncCall α) (ms : Nat) : Except JsError α :=
  if call.usesSignal ∧ call.duration > ms then
    .error ⟨"Error", "Operation timed out after " ++ toString ms ++ "ms"⟩
  else
    match call.outcome with
    | .ok v => .ok v
    | .error e =>
      if e.name = "AbortError" then
        .error ⟨"Error", "Operation timed out after " ++ toString ms ++ "ms"⟩
      else .error e

/-- Substring test used to embed JavaScript `String.prototype.includes`. -/
def strIncludes (s pat : String) : Bool :=
  decide (pat.data <:+: s.data)

/-- The `handleNetworkError` helper of `src/services/ollamaApi.ts`:
`TypeError`s whose lowercased message indicates a fetch-level failure
become the standardized connection message, any other `Error` surfaces
its message verbatim. -/
def handleNetworkError (e : JsError) : String :=
  if e.name = "TypeError" ∧
      (strIncludes e.message.toLower "failed to fetch" ∨
       strIncludes e.message.toLower "networkerror" ∨
       strIncludes e.message.toLower "load failed") then
    "Could not connect to Ollama. Ensure it is running (e.g., `ollama serve`) and accessible."
  else e.message

/-- A model entry of the `/tags` response; only `name` is consumed. -/
structure OllamaModel where
  name : String
deriving DecidableEq, Repr

/-- Decoded body of the `/tags` endpoint. -/
structure OllamaTagsResponse where
  models : List OllamaModel
deriving DecidableEq, Repr

/-- The `mapOllamaModelsToOptions` transform
(`src/utils/transforms.ts`, lines 3–9). -/
def mapOllamaModelsToOptions (response : OllamaTagsResponse) : List DropdownOption :=
  response.models.map (fun model => ⟨model.name, model.name⟩)

/-- What the network hands back to a client before decoding: an HTTP
response (with its `ok` flag, status, status text and decoded JSON body)
or a rejection of the `fetch` promise itself. -/
inductive HttpOutcome (β : Type) where
  | response (ok : Bool) (status : Nat) (statusText : String) (body : β)
  | failure (e : JsError)
deriving Repr

/-- Settlement of the closure passed to `withTimeout` by
`fetchOllamaModels`: the fetch plus the `response.ok` check plus
decoding and mapping. -/
def fetchModelsInner (o : HttpOutcome OllamaTagsResponse) :
    Except JsError (List DropdownOption) :=
  match o with
  | .response true _ _ body => .ok (mapOllamaModelsToOptions body)
  | .response false status statusText _ =>
    .error ⟨"Error", "Failed to fetch models: " ++ toString status ++ " " ++ statusText⟩
  | .failure e => .error e

/-- The `fetchOllamaModels` client (`src/services/ollamaApi.ts`,
lines 32–49 of the final revision): wraps the fetch in `withTimeout`
with the 10 s budget and rewrites errors in the trailing catch. The
`fetch` call passes no abort signal, hence `usesSignal := false`. -/
def fetchOllamaModels (o : HttpOutcome OllamaTagsResponse) (duration : Nat) :
    Except String (List DropdownOption) :=
  match withTimeout ⟨duration, fetchModelsInner o, false⟩ MODEL_FETCH_TIMEOUT with
  | .ok v => .ok v
  | .error e =>
    if strIncludes e.message "timed out" then
      .error "Ollama server not responding. Ensure it is running and accessible."
    else .error (handleNetworkError e)

/-- Body of the `/chat` endpoint as the client sees it: whether the body
decodes as JSON at all, the `message.content` field consumed on success,
and the `error` field consulted on non-ok responses. -/
structure OllamaChatBody where
  jsonDecodes : Bool
  content : String
  errorField : Option String
deriving DecidableEq, Repr

/-- Settlement of the closure passed to `withTimeout` by
`fetchTranslation`: on a non-ok response, `errorData` is the decoded
body, or `{ error: "HTTP error: {status}" }` when decoding fails, and
the thrown message is `errorData.error` when truthy, else the
`Failed to get response from AI` fallback. -/
def fetchTranslationInner (o : HttpOutcome OllamaChatBody) : Except JsError String :=
  match o with
  | .response true _ _ body => .ok body.content
  | .response false status _ body =>
    let errorDataError : Option String :=
      if body.jsonDecodes then body.errorField
      else some ("HTTP error: " ++ toString status)
    .error ⟨"Error",
      match errorDataError with
      | some msg =>
        if msg ≠ "" then msg else "Failed to get response from AI: " ++ toString status
      | none => "Failed to get response from AI: " ++ toString status⟩
  | .failure e => .error e

/-- The `fetchTranslation` client (`src/services/ollamaApi.ts`,
lines 51–89 of the final revision): 30 s budget, and the catch rewrites
the error to the translation-timeout message only when the message both
contains `timed out` and names the 30000 ms budget. The `fetch` call
passes no abort signal, hence `usesSignal := false`. -/
def fetchTranslation (o : HttpOutcome OllamaChatBody) (duration : Nat) :
    Except String String :=
  match withTimeout ⟨duration, fetchTranslationInner o, false⟩ TRANSLATION_TIMEOUT with
  | .ok v => .ok v
  | .error e =>
    if strIncludes e.message "timed out" ∧
        strIncludes e.message (toString TRANSLATION_TIMEOUT ++ "ms") then
      .error "Translation request timeout. The model may be taking too long to respond."
    else .error (handleNetworkError e)

/-! ### Model selection (`src/utils/transforms.ts`, `src/hooks/useOllamaModels.ts`) -/

/-- The `selectInitialModel` transform (`src/utils/transforms.ts`,
lines 59–68). An empty string is JavaScript-falsy, so `current` and
`favorite` are "present" exactly when non-empty. -/
def selectInitialModel (current favorite : String) (available : List DropdownOption) :
    String :=
  if current = "" ∧ favorite = "" then
    ((available.head?).map DropdownOption.value).getD ""
  else if current ≠ "" ∧ available.any (fun m => m.value == current) then current
  else if favorite ≠ "" ∧ available.any (fun m => m.value == favorite) then favorite
  else ((available.head?).map DropdownOption.value).getD ""

/-- State of the `useOllamaModels` hook relevant to a directory fetch. -/
structure ModelsState where
  rawModels : List DropdownOption
  selectedModel : String
  favoriteModel : String
  isLoadingModels : Bool
  modelError : Option String
deriving DecidableEq, Repr

/-- The `fetchModels` callback of the final `useOllamaModels`
(`src/hooks/useOllamaModels.ts`, lines 126–150): sets loading, clears
the error, then applies the settled `fetchOllamaModels` result — an
empty listing records the "no models" error and clears the selection, a
non-empty one selects via `selectInitialModel`, a rejection records its
message and clears both listing and selection. -/
def fetchModelsUpdate (s : ModelsState) (result : Except String (List DropdownOption)) :
    ModelsState :=
  let s0 := { s with isLoadingModels := true, modelError := none }
  let s1 :=
    match result with
    | .ok models =>
      let s0 := { s0 with rawModels := models }
      if models.length = 0 then
        { s0 with
          modelError := some "No Ollama models found. Ensure models are pulled in Ollama."
          selectedModel := "" }
      else
        { s0 with selectedModel := selectInitialModel s.selectedModel s.favoriteModel models }
    | .error msg =>
      { s0 with modelError := some msg, rawModels := [], selectedModel := "" }
  { s1 with isLoadingModels := false }

/-! ### Preference store (`src/hooks/usePersistentState.ts`)

The hook persists each preference as a JSON-encoded string under a fixed
key. All values the app persists are strings (language codes, model
identifiers), so the platform's `JSON.stringify` / `JSON.parse` pair is
embedded for string payloads: `jsonStringifyString` quotes and escapes
per the JSON string grammar, `jsonParseString` parses an input that
consists of exactly one JSON string literal and fails (as `JSON.parse`
throws) on anything else. -/

/-- Hexadecimal digit characters as produced by `JSON.stringify`'s
`\u00XX` escapes (lowercase). -/
def hexDigitChar (n : Nat) : Char :=
  if n < 10 then Char.ofNat ('0'.toNat + n) else Char.ofNat ('a'.toNat + (n - 10))

/-- Escape of one character inside a JSON string literal, as performed
by `JSON.stringify` on strings: the two-character escapes for quote,
backslash and the named control characters, `\u00XX` for the remaining
control characters, and the character itself otherwise. -/
def escapeJsonChar (c : Char) : List Char :=
  if c = '"' then ['\\', '"']
  else if c = '\\' then ['\\', '\\']
  else if c.toNat = 8 then ['\\', 'b']
  else if c.toNat = 9 then ['\\', 't']
  else if c.toNat = 10 then ['\\', 'n']
  else if c.toNat = 12 then ['\\', 'f']
  else if c.toNat = 13 then ['\\', 'r']
  else if c.toNat < 32 then
    ['\\', 'u', '0', '0', hexDigitChar (c.toNat / 16), hexDigitChar (c.toNat % 16)]
  else [c]

/-- Model of `JSON.stringify` applied to a string value. -/
def jsonStringifyString (s : String) : String :=
  ⟨'"' :: (s.data.flatMap escapeJsonChar ++ ['"'])⟩

/-- Value of a hexadecimal digit character, as accepted inside a `\u`
escape. -/
def hexCharVal (c : Char) : Option Nat :=
  if '0' ≤ c ∧ c ≤ '9' then some (c.toNat - '0'.toNat)
  else if 'a' ≤ c ∧ c ≤ 'f' then some (c.toNat - 'a'.toNat + 10)
  else if 'A' ≤ c ∧ c ≤ 'F' then some (c.toNat - 'A'.toNat + 10)
  else none

/-- Parser for the body of a JSON string literal (everything after the
opening quote): returns the decoded characters and the input remaining
after the closing quote, or `none` where `JSON.parse` would throw
(unterminated literal, invalid escape, raw control character). -/
def parseJsonStringBody : List Char → Option (List Char × List Char)
  | [] => none
  | c :: cs =>
    if c = '"' then some ([], cs)
    else if c = '\\' then
      match cs with
      | [] => none
      | e :: cs2 =>
        if e = '"' then (parseJsonStringBody cs2).map (fun br => ('"' :: br.1, br.2))
        else if e = '\\' then (parseJsonStringBody cs2).map (fun br => ('\\' :: br.1, br.2))
        else if e = '/' then (parseJsonStringBody cs2).map (fun br => ('/' :: br.1, br.2))
        else if e = 'b' then
          (parseJsonStringBody cs2).map (fun br => (Char.ofNat 8 :: br.1, br.2))
        else if e = 't' then
          (parseJsonStringBody cs2).map (fun br => (Char.ofNat 9 :: br.1, br.2))
        else if e = 'n' then
          (parseJsonStringBody cs2).map (fun br => (Char.ofNat 10 :: br.1, br.2))
        else if e = 'f' then
          (parseJsonStringBody cs2).map (fun br => (Char.ofNat 12 :: br.1, br.2))
        else if e = 'r' then
          (parseJsonStringBody cs2).map (fun br => (Char.ofNat 13 :: br.1, br.2))
        else if e = 'u' then
          match cs2 with
          | d1 :: d2 :: d3 :: d4 :: cs3 =>
            match hexCharVal d1, hexCharVal d2, hexCharVal d3, hexCharVal d4 with
            | some a, some b, some c3, some d =>
              (parseJsonStringBody cs3).map
                (fun br => (Char.ofNat (((a * 16 + b) * 16 + c3) * 16 + d) :: br.1, br.2))
            | _, _, _, _ => none
          | _ => none
        else none
    else if c.toNat < 32 then none
    else (parseJsonStringBody cs).map (fun br => (c :: br.1, br.2))

/-- Model of `JSON.parse` applied to an input expected to hold a string
value: the whole input must be a single string literal. -/
def jsonParseString (input : String) : Option String :=
  match input.data with
  | '"' :: body =>
    match parseJsonStringBody body with
    | some (content, []) => some ⟨content⟩
    | _ => none
  | _ => none

/-- Browser `localStorage`, embedded as an association list from keys to
stored strings. -/
def Storage := List (String × String)

/-- Model of `localStorage.getItem`: the stored string, or `none` (JS
`null`) when the key is absent. -/
def storageGetItem (st : Storage) (key : String) : Option String :=
  (List.find? (fun p => p.1 == key) st).map Prod.snd

/-- Model of `localStorage.setItem`. -/
def storageSetItem (st : Storage) (key value : String) : Storage :=
  match st with
  | [] => [(key, value)]
  | p :: rest => if p.1 = key then (key, value) :: rest else p :: storageSetItem rest key value

/-- The lazy initializer of `usePersistentState`
(`usePersistentState.ts`, lines 20–28): read the key, return the parsed
value when a stored string is present and truthy, and the default when
the key is absent, the stored string is empty (falsy), or `JSON.parse`
throws (the catch returns `defaultValue`). -/
def readPersistentState (st : Storage) (key defaultValue : String) : String :=
  match storageGetItem st key with
  | none => defaultValue
  | some stored =>
    if stored = "" then defaultValue
    else
      match jsonParseString stored with
      | some v => v
      | none => defaultValue

/-- The write-through effect of `usePersistentState`
(`usePersistentState.ts`, lines 30–36): every state change stores
`JSON.stringify(state)` under the key. -/
def writePersistentState (st : Storage) (key value : String) : Storage :=
  storageSetItem st key (jsonStringifyString value)

/-! ## Theorems settling the claims -/

/-- C1. Latest-sequence-wins: for every completed translation call, the
visible output/error state is mutated if and only if the sequence number
the call captured at submission equals the coordinator's current
sequence number at completion: a stale completion changes no visible
state regardless of completion order, a current success replaces the
visible output, and a current failure records the error text and clears
the visible output. -/
theorem latestSequenceWins (s : CoordState) (requestId : Nat)
    (result : Except String String) :
    (requestId ≠ s.currentRequestId →
      (translateTextComplete s requestId result).translatedText = s.translatedText ∧
      (translateTextComplete s requestId result).translationError = s.translationError ∧
      (translateTextComplete s requestId result).isTranslating = s.isTranslating) ∧
    (requestId = s.currentRequestId →
      (∀ t, result = .ok t →
        (translateTextComplete s requestId result).translatedText = t ∧
        (translateTextComplete s requestId result).translationError = s.translationError) ∧
      (∀ msg, result = .error msg →
        (translateTextComplete s requestId result).translatedText = "" ∧
        (translateTextComplete s requestId result).translationError = some msg)) := by
  cases result <;>
    by_cases h : requestId = s.currentRequestId <;>
      simp [translateTextComplete, h]

/-- Witness for C1 at concrete inputs: a stale success (captured id 1,
current id 2) leaves the output untouched, a current success replaces
it. -/
theorem latestSequenceWins_witness :
    (translateTextComplete ⟨"old", true, none, 2, true⟩ 1 (.ok "new")).translatedText = "old" ∧
    (translateTextComplete ⟨"old", true, none, 2, true⟩ 2 (.ok "new")).translatedText = "new" := by
  refine ⟨((latestSequenceWins ⟨"old", true, none, 2, true⟩ 1 (.ok "new")).1 (by decide)).1, ?_⟩
  exact (((latestSequenceWins ⟨"old", true, none, 2, true⟩ 2 (.ok "new")).2 rfl).1 "new" rfl).1

/-- C2 counterexample. With non-blank trimmed text, a selected model and
no call in flight, the claim predicts a network request is issued and
the busy state entered; but when the submitted text equals the currently
displayed translation and no error is recorded, `translateText` issues
no request and never becomes busy — while still incrementing the
sequence counter. -/
theorem submitContract_counterexample :
    jsTrim "hola" ≠ "" ∧
    (TranslationProps.mk "m" "auto" "es").selectedModel ≠ "" ∧
    (CoordState.mk "hola" false none 3 false).isTranslatingRef = false ∧
    (translateTextSubmit ⟨"m", "auto", "es"⟩ ⟨"hola", false, none, 3, false⟩ "hola").request
      = none ∧
    (translateTextSubmit ⟨"m", "auto", "es"⟩
        ⟨"hola", false, none, 3, false⟩ "hola").state.isTranslating = false ∧
    (translateTextSubmit ⟨"m", "auto", "es"⟩
        ⟨"hola", false, none, 3, false⟩ "hola").state.currentRequestId = 4 := by
  decide

/-- C2 (amended). Contract of `translateText`: blank trimmed text, no
selected model, or a call in flight is a full no-op; otherwise the
sequence counter is incremented and — unless the trimmed text equals the
currently displayed translation with no recorded error, in which case
nothing else happens — the prior error is cleared, the busy state is
entered, and exactly one Translation Client call is issued carrying the
current source/target/model and the fixed generation configuration
(temperature 0.2, seed 42, top_k 20, top_p 0.7). -/
theorem submitContract (props : TranslationProps) (s : CoordState) (text : String) :
    (jsTrim text = "" ∨ props.selectedModel = "" ∨ s.isTranslatingRef = true →
      translateTextSubmit props s text = ⟨s, none⟩) ∧
    (jsTrim text ≠ "" → props.selectedModel ≠ "" → s.isTranslatingRef = false →
      (jsTrim text = s.translatedText ∧ s.translationError = none →
        translateTextSubmit props s text =
          ⟨{ s with currentRequestId := s.currentRequestId + 1 }, none⟩) ∧
      (¬(jsTrim text = s.translatedText ∧ s.translationError = none) →
        translateTextSubmit props s text =
          ⟨{ s with
              currentRequestId := s.currentRequestId + 1
              translationError := none
              isTranslating := true
              isTranslatingRef := true
              translatedText := "" },
            some
              { id := s.currentRequestId + 1
                req :=
                  { model := props.selectedModel
                    messages :=
                      [⟨"system", translationSystemPrompt⟩,
                       ⟨"user",
                        userMessageContent props.inputLanguage props.outputLanguage
                          (jsTrim text)⟩]
                    options :=
                      { temperature := 0.2, seed := 42, top_k := 20, top_p := 0.7 } } }⟩)) := by
  constructor
  · intro h
    have : ¬(jsTrim text = "" ∨ props.selectedModel = "" ∨ s.isTranslatingRef) → False := by
      intro hc
      exact hc (by simpa using h)
    unfold translateTextSubmit
    rw [if_pos (by simpa using h)]
  · intro h1 h2 h3
    have hguard : ¬(jsTrim text = "" ∨ props.selectedModel = "" ∨ s.isTranslatingRef) := by
      simp [h1, h2, h3]
    constructor
    · intro hd
      unfold translateTextSubmit
      rw [if_neg hguard, if_pos hd]
    · intro hd
      unfold translateTextSubmit
      rw [if_neg hguard, if_neg hd]
      simp

/-- Witness for C2 at concrete inputs: blank text is a full no-op, and a
fresh submission from an error state issues the request with the fixed
options. -/
theorem submitContract_witness :
    translateTextSubmit ⟨"m", "auto", "es"⟩ ⟨"", false, none, 0, false⟩ " " =
      ⟨⟨"", false, none, 0, false⟩, none⟩ ∧
    translateTextSubmit ⟨"m", "auto", "es"⟩ ⟨"old", false, some "err", 7, false⟩ "hi" =
      ⟨⟨"", true, none, 8, true⟩,
        some
          ⟨8,
            { model := "m"
              messages :=
                [⟨"system", translationSystemPrompt⟩,
                 ⟨"user", userMessageContent "auto" "es" (jsTrim "hi")⟩]
              options := { temperature := 0.2, seed := 42, top_k := 20, top_p := 0.7 } }⟩⟩ := by
  constructor
  · exact (submitContract ⟨"m", "auto", "es"⟩ ⟨"", false, none, 0, false⟩ " ").1
      (Or.inl (by decide))
  · exact ((submitContract ⟨"m", "auto", "es"⟩ ⟨"old", false, some "err", 7, false⟩ "hi").2
      (by decide) (by decide) rfl).2 (by simp)

/-- C9. Prompt construction: with source `auto` the user instruction
asks the model to detect the language and translate, output-only, to the
target language's display name; otherwise it names both the source and
the target display names; and whenever the selected language (in either
position) is Catalan, its display name is its `languageOptions` label
with the suffix " (from Catalonia)" appended. -/
theorem promptConstruction (src tgt text : String) :
    (src = "auto" → userMessageContent src tgt text =
      "Detect the language of the following text and then translate it to " ++
        getLanguageLabelWithDialect tgt ++
        ". Your response must contain ONLY the translated text, without any additional comments or explanations.\n\n" ++
        text) ∧
    (src ≠ "auto" → userMessageContent src tgt text =
      "Translate the following text from " ++ getLanguageLabelWithDialect src ++
        " to " ++ getLanguageLabelWithDialect tgt ++ ":\n\n" ++ text) ∧
    (∀ lang ∈ languageOptions, lang.value = "ca" →
      getLanguageLabelWithDialect lang.value = lang.label ++ " (from Catalonia)") := by
  refine ⟨fun h => ?_, fun h => ?_, by decide⟩
  · simp [userMessageContent, h]
  · simp [userMessageContent, h]

/-- Witness for C9 at concrete inputs: the auto-detect instruction for a
Spanish target, and the explicit Catalan-to-Spanish instruction carrying
the Catalonia suffix. -/
theorem promptConstruction_witness :
    userMessageContent "auto" "es" "hello" =
      "Detect the language of the following text and then translate it to Spanish. Your response must contain ONLY the translated text, without any additional comments or explanations.\n\nhello" ∧
    userMessageContent "ca" "es" "hola" =
      "Translate the following text from Catalan (from Catalonia) to Spanish:\n\nhola" := by
  constructor
  · rw [(promptConstruction "auto" "es" "hello").1 rfl]
    rfl
  · rw [(promptConstruction "ca" "es" "hola").2.1 (by decide)]
    rfl

/-- C3 counterexample. Source is auto-detect, a model is selected and
the input is within the limit, yet an edit followed by the debounce
window elapsing yields zero network calls, not one: a successful
translation ("bonjour") is still displayed with no error recorded, so
the effect schedules no timer at all. -/
theorem debounceFinalText_counterexample :
    ("m" : String) ≠ "" ∧ isOverLimit "hi" = false ∧ jsTrim "hi" ≠ "" ∧
    (elapseTimer (editInput "m" "auto"
      ⟨"hello", "bonjour", none, "hello", none⟩ "hi")).2 = none := by
  decide

/-- Preservation of the facts the debounce argument needs along any edit
sequence: an edit keeps "no successful output is displayed, or an error
is recorded", and can only change `lastTranslatedText` to the empty
string. -/
theorem editInput_preserves (model lang : String) (s : PageState) (t L : String)
    (h1 : s.translatedText = "" ∨ s.translationError ≠ none)
    (h2 : s.lastTranslatedText = L ∨ s.lastTranslatedText = "") :
    ((editInput model lang s t).translatedText = "" ∨
      (editInput model lang s t).translationError ≠ none) ∧
    ((editInput model lang s t).lastTranslatedText = L ∨
      (editInput model lang s t).lastTranslatedText = "") := by
  unfold editInput runDebounceEffect
  dsimp only
  split
  · exact ⟨Or.inl rfl, Or.inr rfl⟩
  · split
    · exact ⟨h1, h2⟩
    · exact ⟨h1, h2⟩

/-- An edit sequence preserves those facts (fold form). -/
theorem foldl_editInput_preserves (model lang : String) (edits : List String)
    (s : PageState) (L : String)
    (h1 : s.translatedText = "" ∨ s.translationError ≠ none)
    (h2 : s.lastTranslatedText = L ∨ s.lastTranslatedText = "") :
    ((edits.foldl (editInput model lang) s).translatedText = "" ∨
      (edits.foldl (editInput model lang) s).translationError ≠ none) ∧
    ((edits.foldl (editInput model lang) s).lastTranslatedText = L ∨
      (edits.foldl (editInput model lang) s).lastTranslatedText = "") := by
  induction edits generalizing s with
  | nil => exact ⟨h1, h2⟩
  | cons t ts ih =>
    have h := editInput_preserves model lang s t L h1 h2
    exact ih (editInput model lang s t) h.1 h.2

/-- The final edit schedules a timer capturing exactly the final text. -/
theorem editInput_schedules (model : String) (s : PageState) (final : String)
    (hm : model ≠ "") (hf : jsTrim final ≠ "")
    (hlen : isOverLimit final = false)
    (hvis : s.translatedText = "" ∨ s.translationError ≠ none)
    (hlast : final ≠ s.lastTranslatedText) :
    (editInput model "auto" s final).pendingTimer = some final := by
  unfold editInput runDebounceEffect
  dsimp only
  rw [if_neg (by simpa using hf)]
  rw [if_pos (by exact ⟨rfl, by simpa using hlast, by simpa using hvis, hm, hlen⟩)]

/-- C3 (amended). Auto-translate debounce: with source auto-detect, a
model selected, the final text within the length limit, non-blank,
different from the last auto-translated text, and no successful
translation currently displayed (visible output empty or an error
recorded), any sequence of input edits followed by the 750 ms debounce
window elapsing exactly once fires exactly one submission, and it
carries the final (most recent) input text; and every edit cancels the
previously scheduled submission (after an edit the only timer that can
be pending is one carrying that edit's own text). -/
theorem debounceFinalText (model : String) (s : PageState) (edits : List String)
    (final : String)
    (hm : model ≠ "") (hf : jsTrim final ≠ "")
    (hlen : isOverLimit final = false)
    (hvis : s.translatedText = "" ∨ s.translationError ≠ none)
    (hlast : final ≠ s.lastTranslatedText) :
    (elapseTimer ((edits ++ [final]).foldl (editInput model "auto") s)).2 = some final ∧
    (elapseTimer ((edits ++ [final]).foldl (editInput model "auto") s)).1.pendingTimer
      = none ∧
    (∀ (u : PageState) (t : String),
      (editInput model "auto" u t).pendingTimer = none ∨
      (editInput model "auto" u t).pendingTimer = some t) := by
  have hfinal_ne : final ≠ "" := by
    intro h
    exact hf (by simp [h, jsTrim])
  have hfold := foldl_editInput_preserves model "auto" edits s s.lastTranslatedText hvis
    (Or.inl rfl)
  have hsched :
      ((edits ++ [final]).foldl (editInput model "auto") s).pendingTimer = some final := by
    rw [List.foldl_append]
    exact editInput_schedules model _ final hm hf hlen hfold.1
      (by rcases hfold.2 with h | h <;> rw [h] <;> [exact hlast; exact hfinal_ne])
  refine ⟨?_, ?_, ?_⟩
  · unfold elapseTimer
    rw [hsched]
  · unfold elapseTimer
    rw [hsched]
  · intro u t
    unfold editInput runDebounceEffect
    dsimp only
    split
    · exact Or.inl rfl
    · split
      · exact Or.inr rfl
      · exact Or.inl rfl

/-- Witness for C3 at concrete inputs: two rapid edits "a", "b" followed
by final text "hi" and one elapse fire exactly one submission with
"hi". -/
theorem debounceFinalText_witness :
    (elapseTimer ((["a", "b"] ++ ["hi"]).foldl (editInput "m" "auto")
      ⟨"", "", none, "", none⟩)).2 = some "hi" := by
  exact (debounceFinalText "m" ⟨"", "", none, "", none⟩ ["a", "b"] "hi"
    (by decide) (by decide) (by decide) (Or.inl rfl) (by decide)).1

/-- C4. Model selection after a directory fetch with a non-empty listing
prefers, in order: the prior explicit selection when it still exists in
the listing, else the favorite when present in the listing, else the
first listed model; and the chosen model is always a member of the
listing. -/
theorem modelSelectionOrder (current favorite : String)
    (available : List DropdownOption) (h : available ≠ []) :
    (current ≠ "" → available.any (fun m => m.value == current) = true →
      selectInitialModel current favorite available = current) ∧
    ((current = "" ∨ available.any (fun m => m.value == current) = false) →
      favorite ≠ "" → available.any (fun m => m.value == favorite) = true →
      selectInitialModel current favorite available = favorite) ∧
    ((current = "" ∨ available.any (fun m => m.value == current) = false) →
      (favorite = "" ∨ available.any (fun m => m.value == favorite) = false) →
      selectInitialModel current favorite available =
        ((available.head?).map DropdownOption.value).getD "") ∧
    selectInitialModel current favorite available ∈
      available.map DropdownOption.value := by
  obtain ⟨a, rest, rfl⟩ : ∃ a rest, available = a :: rest :=
    ⟨available.head (by simpa using h), available.tail, (List.head_cons_tail _ _).symm⟩
  refine ⟨?_, ?_, ?_, ?_⟩
  · intro hc hany
    unfold selectInitialModel
    rw [if_neg (by simp [hc]), if_pos ⟨hc, hany⟩]
  · intro hc hfne hfany
    unfold selectInitialModel
    rcases hc with hc | hc
    · rw [if_neg (by simp [hfne]), if_neg (by simp [hc]), if_pos ⟨hfne, hfany⟩]
    · rw [if_neg (by simp [hfne]), if_neg (by simp [hc]), if_pos ⟨hfne, hfany⟩]
  · intro hc hfav
    unfold selectInitialModel
    by_cases h0 : current = "" ∧ favorite = ""
    · rw [if_pos h0]
    · rw [if_neg h0]
      have hc' : ¬(current ≠ "" ∧ (a :: rest).any (fun m => m.value == current) = true) := by
        rcases hc with hc | hc
        · simp [hc]
        · simp [hc]
      have hf' : ¬(favorite ≠ "" ∧ (a :: rest).any (fun m => m.value == favorite) = true) := by
        rcases hfav with hfav | hfav
        · simp [hfav]
        · simp [hfav]
      rw [if_neg (by simpa using hc'), if_neg (by simpa using hf')]
  · unfold selectInitialModel
    split
    · simp
    · split
      · rename_i hcur
        have := hcur.2
        simp only [List.any_eq_true, beq_iff_eq] at this
        obtain ⟨m, hmem, hval⟩ := this
        rw [← hval]
        exact List.mem_map_of_mem DropdownOption.value hmem
      · split
        · rename_i hfav
          have := hfav.2
          simp only [List.any_eq_true, beq_iff_eq] at this
          obtain ⟨m, hmem, hval⟩ := this
          rw [← hval]
          exact List.mem_map_of_mem DropdownOption.value hmem
        · simp

/-- Witness for C4 at concrete inputs: a surviving prior selection beats
a present favorite, and with no prior selection the favorite is
chosen. -/
theorem modelSelectionOrder_witness :
    selectInitialModel "b" "c" [⟨"a", "a"⟩, ⟨"b", "b"⟩, ⟨"c", "c"⟩] = "b" ∧
    selectInitialModel "" "c" [⟨"a", "a"⟩, ⟨"b", "b"⟩, ⟨"c", "c"⟩] = "c" := by
  constructor
  · exact (modelSelectionOrder "b" "c" [⟨"a", "a"⟩, ⟨"b", "b"⟩, ⟨"c", "c"⟩]
      (by decide)).1 (by decide) (by decide)
  · exact (modelSelectionOrder "" "c" [⟨"a", "a"⟩, ⟨"b", "b"⟩, ⟨"c", "c"⟩]
      (by decide)).2.1 (Or.inl rfl) (by decide) (by decide)

/-- C5. A directory fetch whose HTTP response is ok but lists no models
is a non-error result of the Model Directory Client (`Except.ok []`, no
throw), and the `useOllamaModels` update then deterministically records
the "no models installed" error text, clears the selected model to the
empty string, and stores the empty listing. -/
theorem emptyListingNoModels (s : ModelsState) (status : Nat) (statusText : String)
    (duration : Nat) (r : OllamaTagsResponse) (h : r.models = []) :
    fetchOllamaModels (.response true status statusText r) duration = .ok [] ∧
    (fetchModelsUpdate s (.ok [])).modelError =
      some "No Ollama models found. Ensure models are pulled in Ollama." ∧
    (fetchModelsUpdate s (.ok [])).selectedModel = "" ∧
    (fetchModelsUpdate s (.ok [])).rawModels = [] ∧
    (fetchModelsUpdate s (.ok [])).isLoadingModels = false := by
  refine ⟨?_, rfl, rfl, rfl, rfl⟩
  simp [fetchOllamaModels, withTimeout, fetchModelsInner, mapOllamaModelsToOptions, h]

/-- Witness for C5 at a concrete input: an ok `/tags` response with an
empty `models` array, starting from a state with a previously selected
model. -/
theorem emptyListingNoModels_witness :
    fetchOllamaModels (.response true 200 "OK" ⟨[]⟩) 50 = .ok [] ∧
    (fetchModelsUpdate ⟨[⟨"a", "a"⟩], "a", "", false, none⟩ (.ok [])).selectedModel
      = "" := by
  exact ⟨(emptyListingNoModels ⟨[⟨"a", "a"⟩], "a", "", false, none⟩ 200 "OK" 50 ⟨[]⟩ rfl).1,
    (emptyListingNoModels ⟨[⟨"a", "a"⟩], "a", "", false, none⟩ 200 "OK" 50 ⟨[]⟩ rfl).2.2.1⟩

/-- C6 (code bug). The documented 10 s directory / 30 s translation
timeouts are never enforced: `withTimeout` aborts an `AbortController`
whose signal the `fetch` calls in `src/services/ollamaApi.ts` never
receive, so a directory call whose response arrives after 15 s (> 10 s)
still resolves to the successful model list, and a translation call
settling after 45 s (> 30 s) still resolves to the translated text —
neither yields the documented timeout error. -/
theorem timeoutNotEnforced :
    fetchOllamaModels (.response true 200 "OK" ⟨[⟨"llama3"⟩]⟩) 15000 =
      .ok [⟨"llama3", "llama3"⟩] ∧
    fetchTranslation (.response true 200 "OK" ⟨true, "translated", none⟩) 45000 =
      .ok "translated" ∧
    MODEL_FETCH_TIMEOUT = 10000 ∧ TRANSLATION_TIMEOUT = 30000 := by
  exact ⟨rfl, rfl, rfl, rfl⟩

/-- C7. Input-length boundary: an input of exactly
`MAX_INPUT_CHARACTERS` (6400) characters is not over the limit and a
translate click on it falls through to `translateText`, while an input
of 6401 characters sets the over-limit flag and the click is rejected
locally (no call). -/
theorem inputLengthBoundary (text model : String) (hm : model ≠ "")
    (ht : jsTrim text ≠ "") :
    (text.length = MAX_INPUT_CHARACTERS →
      isOverLimit text = false ∧ handleTranslateClick text model false = true) ∧
    (text.length = MAX_INPUT_CHARACTERS + 1 →
      isOverLimit text = true ∧ handleTranslateClick text model false = false) := by
  constructor
  · intro h
    have hov : isOverLimit text = false := by
      simp [isOverLimit, h]
    refine ⟨hov, ?_⟩
    simp [handleTranslateClick, ht, hm, hov]
  · intro h
    have hov : isOverLimit text = true := by
      simp [isOverLimit, h, MAX_INPUT_CHARACTERS]
    refine ⟨hov, ?_⟩
    simp [handleTranslateClick, hov]

/-- Trimming a block of letters is the identity, so such a block is a
valid non-blank input. -/
theorem jsTrim_replicate_a (n : Nat) :
    jsTrim ⟨List.replicate n 'a'⟩ = ⟨List.replicate n 'a'⟩ := by
  unfold jsTrim
  have h : ∀ m, List.dropWhile Char.isWhitespace (List.replicate m 'a')
      = List.replicate m 'a' := by
    intro m
    cases m with
    | zero => rfl
    | succ k => simp [List.replicate_succ, List.dropWhile_cons]
  rw [h, List.reverse_replicate, h, List.reverse_replicate]

/-- A nonempty block of letters does not trim to the empty string. -/
theorem jsTrim_replicate_a_ne (n : Nat) (hn : 0 < n) :
    jsTrim ⟨List.replicate n 'a'⟩ ≠ "" := by
  rw [jsTrim_replicate_a]
  intro h
  have := congrArg String.length h
  simp [String.length] at this
  omega

/-- Witness for C7 at concrete inputs: a 6400-character text is accepted
and a 6401-character text is rejected. -/
theorem inputLengthBoundary_witness :
    isOverLimit (String.mk (List.replicate 6400 'a')) = false ∧
    handleTranslateClick (String.mk (List.replicate 6400 'a')) "m" false = true ∧
    isOverLimit (String.mk (List.replicate 6401 'a')) = true ∧
    handleTranslateClick (String.mk (List.replicate 6401 'a')) "m" false = false := by
  have h1 := (inputLengthBoundary (String.mk (List.replicate 6400 'a')) "m"
    (by decide) (jsTrim_replicate_a_ne 6400 (by omega))).1
    (by show (List.replicate 6400 'a').length = MAX_INPUT_CHARACTERS
        rw [List.length_replicate]
        rfl)
  have h2 := (inputLengthBoundary (String.mk (List.replicate 6401 'a')) "m"
    (by decide) (jsTrim_replicate_a_ne 6401 (by omega))).2
    (by show (List.replicate 6401 'a').length = MAX_INPUT_CHARACTERS + 1
        rw [List.length_replicate]
        rfl)
  exact ⟨h1.1, h1.2, h2.1, h2.2⟩

/-- The hexadecimal digits emitted by the `\u00XX` escapes decode back
to their values. -/
theorem hexCharVal_hexDigitChar : ∀ m, m < 16 → hexCharVal (hexDigitChar m) = some m := by
  decide

/-- The digit `0` decodes to zero. -/
theorem hexCharVal_zero : hexCharVal '0' = some 0 := by decide

/-- Parsing an escaped character followed by any remainder decodes that
character and continues in the remainder. -/
theorem parseJsonStringBody_escape (c : Char) (rest : List Char) :
    parseJsonStringBody (escapeJsonChar c ++ rest)
      = (parseJsonStringBody rest).map (fun br => (c :: br.1, br.2)) := by
  by_cases h1 : c = '"'
  · subst h1
    rw [show escapeJsonChar '"' = ['\\', '"'] from rfl]
    rw [parseJsonStringBody.eq_def]
    simp
  by_cases h2 : c = '\\'
  · subst h2
    rw [show escapeJsonChar '\\' = ['\\', '\\'] from rfl]
    rw [parseJsonStringBody.eq_def]
    simp
  by_cases h3 : c.toNat = 8
  · have hc : Char.ofNat 8 = c := by rw [← h3, Char.ofNat_toNat]
    have he : escapeJsonChar c = ['\\', 'b'] := by simp [escapeJsonChar, h1, h2, h3]
    rw [he]
    rw [parseJsonStringBody.eq_def]
    simp
    rw [hc]
  by_cases h4 : c.toNat = 9
  · have hc : Char.ofNat 9 = c := by rw [← h4, Char.ofNat_toNat]
    have he : escapeJsonChar c = ['\\', 't'] := by simp [escapeJsonChar, h1, h2, h3, h4]
    rw [he]
    rw [parseJsonStringBody.eq_def]
    simp
    rw [hc]
  by_cases h5 : c.toNat = 10
  · have hc : Char.ofNat 10 = c := by rw [← h5, Char.ofNat_toNat]
    have he : escapeJsonChar c = ['\\', 'n'] := by simp [escapeJsonChar, h1, h2, h3, h4, h5]
    rw [he]
    rw [parseJsonStringBody.eq_def]
    simp
    rw [hc]
  by_cases h6 : c.toNat = 12
  · have hc : Char.ofNat 12 = c := by rw [← h6, Char.ofNat_toNat]
    have he : escapeJsonChar c = ['\\', 'f'] := by
      simp [escapeJsonChar, h1, h2, h3, h4, h5, h6]
    rw [he]
    rw [parseJsonStringBody.eq_def]
    simp
    rw [hc]
  by_cases h7 : c.toNat = 13
  · have hc : Char.ofNat 13 = c := by rw [← h7, Char.ofNat_toNat]
    have he : escapeJsonChar c = ['\\', 'r'] := by
      simp [escapeJsonChar, h1, h2, h3, h4, h5, h6, h7]
    rw [he]
    rw [parseJsonStringBody.eq_def]
    simp
    rw [hc]
  by_cases h8 : c.toNat < 32
  · have he : escapeJsonChar c
        = ['\\', 'u', '0', '0', hexDigitChar (c.toNat / 16), hexDigitChar (c.toNat % 16)] := by
      simp [escapeJsonChar, h1, h2, h3, h4, h5, h6, h7, h8]
    rw [he]
    have hv1 : hexCharVal (hexDigitChar (c.toNat / 16)) = some (c.toNat / 16) :=
      hexCharVal_hexDigitChar _ (by omega)
    have hv2 : hexCharVal (hexDigitChar (c.toNat % 16)) = some (c.toNat % 16) :=
      hexCharVal_hexDigitChar _ (by omega)
    have hn : c.toNat / 16 * 16 + c.toNat % 16 = c.toNat := by omega
    rw [parseJsonStringBody.eq_def]
    simp [hexCharVal_zero, hv1, hv2, hn, Char.ofNat_toNat]
  · have he : escapeJsonChar c = [c] := by
      simp [escapeJsonChar, h1, h2, h3, h4, h5, h6, h7, h8]
    rw [he]
    simp only [List.cons_append, List.nil_append]
    rw [parseJsonStringBody.eq_def]
    simp [h1, h2, h8]

/-- Round trip through the JSON string-literal codec, list form: the
escaped characters followed by the closing quote parse back to the
original characters with nothing left over. -/
theorem parseJsonStringBody_stringify (s : List Char) :
    parseJsonStringBody (s.flatMap escapeJsonChar ++ ['"']) = some (s, []) := by
  induction s with
  | nil =>
    rw [show (([] : List Char).flatMap escapeJsonChar ++ ['"']) = ['"'] from rfl]
    rw [parseJsonStringBody.eq_def]
    simp
  | cons c cs ih =>
    rw [List.flatMap_cons, List.append_assoc, parseJsonStringBody_escape, ih]
    rfl

/-- Round trip through the JSON string codec, string form. -/
theorem jsonParseString_stringify (v : String) :
    jsonParseString (jsonStringifyString v) = some v := by
  unfold jsonParseString
  rw [show (jsonStringifyString v).data
      = '"' :: (v.data.flatMap escapeJsonChar ++ ['"']) from rfl]
  simp only []
  rw [parseJsonStringBody_stringify]

/-- Writing under a key stores exactly the given string under that
key. -/
theorem storageGetItem_setItem (st : Storage) (k v : String) :
    storageGetItem (storageSetItem st k v) k = some v := by
  induction st with
  | nil => simp [storageSetItem, storageGetItem, List.find?]
  | cons p rest ih =>
    by_cases h : p.1 = k
    · simp [storageSetItem, h, storageGetItem, List.find?]
    · simp only [storageSetItem, if_neg h]
      simp only [storageGetItem, List.find?] at ih ⊢
      rw [show (p.1 == k) = false from by simpa using h]
      exact ih

/-- Stringified values are never the empty (falsy) string. -/
theorem jsonStringifyString_ne_empty (v : String) : jsonStringifyString v ≠ "" := by
  intro h
  have := congrArg String.data h
  simp [jsonStringifyString] at this

/-- C8. Preference persistence round-trip: every value written through
the persistent-state setter under a key is returned unchanged by a
subsequent fresh read of that key; a missing key reads as the hardcoded
default; and a stored string on which `JSON.parse` fails also reads as
the hardcoded default — the read is a total function and never throws. -/
theorem persistentStateRoundTrip (st : Storage) (key v d stored : String) :
    readPersistentState (writePersistentState st key v) key d = v ∧
    (storageGetItem st key = none → readPersistentState st key d = d) ∧
    (storageGetItem st key = some stored → jsonParseString stored = none →
      readPersistentState st key d = d) := by
  refine ⟨?_, ?_, ?_⟩
  · unfold readPersistentState writePersistentState
    rw [storageGetItem_setItem]
    dsimp only
    rw [if_neg (jsonStringifyString_ne_empty v)]
    rw [jsonParseString_stringify]
  · intro h
    unfold readPersistentState
    rw [h]
  · intro h hp
    unfold readPersistentState
    rw [h]
    dsimp only
    by_cases he : stored = ""
    · rw [if_pos he]
    · rw [if_neg he, hp]

/-- Witness for C8 at concrete inputs: the language preference "es"
written to an empty store reads back as "es", and corrupted stored data
reads as the default "en". -/
theorem persistentStateRoundTrip_witness :
    readPersistentState (writePersistentState [] "userSelectedOutputLanguage" "es")
      "userSelectedOutputLanguage" "en" = "es" ∧
    readPersistentState [("userSelectedOutputLanguage", "notjson")]
      "userSelectedOutputLanguage" "en" = "en" := by
  constructor
  · exact (persistentStateRoundTrip [] "userSelectedOutputLanguage" "es" "en" "").1
  · exact (persistentStateRoundTrip [("userSelectedOutputLanguage", "notjson")]
      "userSelectedOutputLanguage" "es" "en" "notjson").2.2 (by decide) (by decide)

/-- A `translateText` invocation either issues nothing and leaves the
in-flight guard as it was, or was entered with the guard clear and
leaves with the guard set. -/
theorem translateTextSubmit_ref (props : TranslationProps) (s : CoordState)
    (text : String) :
    ((translateTextSubmit props s text).request = none ∧
      (translateTextSubmit props s text).state.isTranslatingRef = s.isTranslatingRef) ∨
    (s.isTranslatingRef = false ∧
      (translateTextSubmit props s text).state.isTranslatingRef = true) := by
  unfold translateTextSubmit
  dsimp only
  split
  · exact Or.inl ⟨rfl, rfl⟩
  · rename_i hguard
    have href : s.isTranslatingRef = false := by
      cases hb : s.isTranslatingRef with
      | false => rfl
      | true => exact absurd (Or.inr (Or.inr hb)) hguard
    split
    · exact Or.inl ⟨rfl, rfl⟩
    · exact Or.inr ⟨href, rfl⟩

/-- One event step preserves the in-flight invariant. -/
theorem inFlightInv_step (props : TranslationProps) (σ : SysState) (e : CoordEvent)
    (h : InFlightInv σ) : InFlightInv (sysStep props σ e) := by
  obtain ⟨hlen, href⟩ := h
  cases e with
  | submit text =>
    rcases translateTextSubmit_ref props σ.coord text with ⟨hnone, hsame⟩ | ⟨hfalse, htrue⟩
    · constructor
      · simp [sysStep, hnone]
        exact hlen
      · intro hr
        simp [sysStep, hnone]
        apply href
        rw [← hsame]
        simpa [sysStep] using hr
    · have hempty : σ.inFlight = [] := href hfalse
      constructor
      · simp [sysStep, hempty]
        cases hreq : (translateTextSubmit props σ.coord text).request <;> simp
      · intro hr
        exfalso
        have : (sysStep props σ (.submit text)).coord.isTranslatingRef = true := by
          simpa [sysStep] using htrue
        rw [hr] at this
        simp at this
  | complete requestId result =>
    by_cases hany : σ.inFlight.any (fun p => p.id == requestId) = true
    · have hstep : sysStep props σ (.complete requestId result) =
          { coord := translateTextComplete σ.coord requestId result
            inFlight := σ.inFlight.filter (fun p => p.id != requestId) } := by
        simp [sysStep, hany]
      obtain ⟨p, hp, hpid⟩ := List.any_eq_true.mp hany
      have hsingle : σ.inFlight = [p] := by
        cases hIF : σ.inFlight with
        | nil => rw [hIF] at hp; cases hp
        | cons q rest =>
          rw [hIF] at hlen hp
          simp at hlen
          subst hlen
          simp at hp
          simp [hp]
      have hbne : (p.id != requestId) = false := by
        simp only [bne, hpid, Bool.not_true]
      constructor
      · rw [hstep]
        simp [hsingle, List.filter, hbne]
      · intro _
        rw [hstep]
        simp [hsingle, List.filter, hbne]
    · simp [sysStep, hany]
      exact ⟨hlen, href⟩

/-- The in-flight invariant holds in every state reachable from the
initial one. -/
theorem inFlightInv_run (props : TranslationProps) (evs : List CoordEvent) :
    InFlightInv (sysRun props initialSysState evs) := by
  have base : InFlightInv initialSysState := by
    constructor
    · simp [initialSysState]
    · intro _
      rfl
  have general : ∀ (l : List CoordEvent) (σ : SysState), InFlightInv σ →
      InFlightInv (sysRun props σ l) := by
    intro l
    induction l with
    | nil => intro σ hσ; exact hσ
    | cons e es ih =>
      intro σ hσ
      exact ih (sysStep props σ e) (inFlightInv_step props σ e hσ)
  exact general evs initialSysState base

/-- C10. At most one translation network call is ever in flight: along
every event trace from the initial state at most one issued call is
outstanding, and while one is outstanding every further `translateText`
invocation returns without issuing a request. -/
theorem atMostOneInFlight (props : TranslationProps) (evs : List CoordEvent)
    (text : String) :
    (sysRun props initialSysState evs).inFlight.length ≤ 1 ∧
    ((sysRun props initialSysState evs).inFlight ≠ [] →
      (translateTextSubmit props (sysRun props initialSysState evs).coord text).request
        = none) := by
  obtain ⟨hlen, href⟩ := inFlightInv_run props evs
  refine ⟨hlen, fun hne => ?_⟩
  have htrue : (sysRun props initialSysState evs).coord.isTranslatingRef = true := by
    cases hb : (sysRun props initialSysState evs).coord.isTranslatingRef with
    | false => exact absurd (href hb) hne
    | true => rfl
  unfold translateTextSubmit
  dsimp only
  rw [if_pos (Or.inr (Or.inr htrue))]

/-- Witness for C10 at concrete inputs: after one submission issues a
call, a second submission while it is outstanding issues nothing. -/
theorem atMostOneInFlight_witness :
    (sysRun ⟨"m", "auto", "es"⟩ initialSysState [.submit "hi"]).inFlight.length ≤ 1 ∧
    (translateTextSubmit ⟨"m", "auto", "es"⟩
      (sysRun ⟨"m", "auto", "es"⟩ initialSysState [.submit "hi"]).coord "yo").request
      = none := by
  refine ⟨(atMostOneInFlight ⟨"m", "auto", "es"⟩ [.submit "hi"] "yo").1,
    (atMostOneInFlight ⟨"m", "auto", "es"⟩ [.submit "hi"] "yo").2 ?_⟩
  decide

end Interlingua
